import Mathlib

/-!
Verification of the failure-resilience toolkit of this repository:
retry with backoff (`src/20_decorators_context.py` `retry_decorator`,
`src/11_error_handling.py` `retry_with_backoff`), the circuit breaker
(`src/11_error_handling.py` `CircuitBreaker`), the error aggregator
(`src/11_error_handling.py` `ErrorAggregator`) and the concurrent
health checker (`src/15_async_operations.py` `async_health_check`,
`batch_health_checks`).

Python exceptions are modelled as a pair of the exception class name and
the message (`str(e)`); times (`time.time()`) as rationals; dictionaries
as insertion-ordered association lists, matching CPython dict semantics.
-/

/-- A Python exception value: the class name (`type(e).__name__`) and the
message (`str(e)`). -/
structure PyError where
  ty : String
  msg : String
deriving DecidableEq, Repr

/-- The exception raised by `CircuitBreaker.call` when the breaker is OPEN
and the timeout has not elapsed:
`raise Exception("Circuit breaker is OPEN - service unavailable")`
(src/11_error_handling.py line 74). -/
def circuitOpenError : PyError :=
  ⟨"Exception", "Circuit breaker is OPEN - service unavailable"⟩

/- ----------------------------------------------------------------
Retry loops.

`retry_decorator` (src/20_decorators_context.py lines 42-71) and
`retry_with_backoff` (src/11_error_handling.py lines 20-48) both wrap an
operation in a `for` loop over attempt indices, remember the last caught
exception, re-raise inside the loop on the final allowed attempt, sleep
between attempts, and have a trailing `raise last_exception` after the
loop.  The wrapped operation is modelled as a map from the attempt index
to the outcome of that invocation.  The outcome distinguishes the three
distinct raise sites of the source, and the trace records how many times
the operation was invoked and which delays were passed to `time.sleep`.
---------------------------------------------------------------- -/

/-- Outcome of a retry-wrapped call.  `raisedLoop` is the `raise` on the
final allowed attempt inside the loop; `raisedTrailing` is the trailing
`raise last_exception` after the loop with `last_exception` set;
`raisedNoneTrailing` is that trailing raise with `last_exception = None`
(in Python, `raise None` is a `TypeError`). -/
inductive RetryOutcome (α : Type) where
  | ok (v : α)
  | raisedLoop (e : PyError)
  | raisedTrailing (e : PyError)
  | raisedNoneTrailing
deriving DecidableEq

/-- Observable trace of one retry-wrapped call: the outcome, the number of
invocations of the wrapped operation, and the delays slept between
attempts, in order. -/
structure RetryTrace (α : Type) where
  outcome : RetryOutcome α
  invocations : Nat
  sleeps : List ℚ
deriving DecidableEq

/-- The loop body of `retry_decorator` (src/20_decorators_context.py lines
50-68).  `fuel` is the number of remaining iterations of
`for attempt in range(max_attempts)`; the top-level entry point passes
`fuel = max_attempts` and `attempt = 0`.  On failure of an attempt that is
not the last (`attempt == max_attempts - 1` is the source's test) the loop
sleeps `delay * (backoff ** attempt)` and continues. -/
def retryAux (op : Nat → Except PyError α) (delay backoff : ℚ)
    (max_attempts : Nat) : Nat → Nat → Option PyError → RetryTrace α
  | 0, _, last =>
    match last with
    | some e => ⟨.raisedTrailing e, 0, []⟩
    | none => ⟨.raisedNoneTrailing, 0, []⟩
  | fuel + 1, attempt, _ =>
    match op attempt with
    | .ok v => ⟨.ok v, 1, []⟩
    | .error e =>
      if attempt = max_attempts - 1 then ⟨.raisedLoop e, 1, []⟩
      else
        let r := retryAux op delay backoff max_attempts fuel (attempt + 1) (some e)
        ⟨r.outcome, r.invocations + 1, delay * backoff ^ attempt :: r.sleeps⟩

/-- `retry_decorator(max_attempts, delay, backoff)` applied to an
operation: the wrapper of src/20_decorators_context.py lines 50-68. -/
def retry_decorator_run (max_attempts : Nat) (delay backoff : ℚ)
    (op : Nat → Except PyError α) : RetryTrace α :=
  retryAux op delay backoff max_attempts max_attempts 0 none

/-- The loop body of `retry_with_backoff` (src/11_error_handling.py lines
27-45): `for attempt in range(max_retries + 1)`, final-attempt test
`attempt == max_retries`, and backoff delay `backoff_factor ** attempt`
(no base-delay factor). -/
def retryWbAux (op : Nat → Except PyError α) (backoff_factor : ℚ)
    (max_retries : Nat) : Nat → Nat → Option PyError → RetryTrace α
  | 0, _, last =>
    match last with
    | some e => ⟨.raisedTrailing e, 0, []⟩
    | none => ⟨.raisedNoneTrailing, 0, []⟩
  | fuel + 1, attempt, _ =>
    match op attempt with
    | .ok v => ⟨.ok v, 1, []⟩
    | .error e =>
      if attempt = max_retries then ⟨.raisedLoop e, 1, []⟩
      else
        let r := retryWbAux op backoff_factor max_retries fuel (attempt + 1) (some e)
        ⟨r.outcome, r.invocations + 1, backoff_factor ^ attempt :: r.sleeps⟩

/-- `retry_with_backoff(max_retries, backoff_factor)` applied to an
operation: the wrapper of src/11_error_handling.py lines 27-45.  The loop
runs `range(max_retries + 1)` iterations. -/
def retry_with_backoff_run (max_retries : Nat) (backoff_factor : ℚ)
    (op : Nat → Except PyError α) : RetryTrace α :=
  retryWbAux op backoff_factor max_retries (max_retries + 1) 0 none

/-- The backoff formula of src/20_decorators_context.py line 63:
`wait_time = delay * (backoff ** attempt)`. -/
def wait_time (delay backoff : ℚ) (attempt : Nat) : ℚ :=
  delay * backoff ^ attempt

example :
    retry_decorator_run 3 1 2 (fun _ => (Except.error ⟨"E", "x"⟩ : Except PyError Unit)) =
      ⟨.raisedLoop ⟨"E", "x"⟩, 3, [1, 2]⟩ := by
  norm_num [retry_decorator_run, retryAux]

example :
    retry_with_backoff_run 3 2 (fun _ => (Except.error ⟨"E", "x"⟩ : Except PyError Unit)) =
      ⟨.raisedLoop ⟨"E", "x"⟩, 4, [1, 2, 4]⟩ := by
  norm_num [retry_with_backoff_run, retryWbAux]

example :
    retry_decorator_run 3 1 2
      (fun k => if k = 2 then (Except.ok 7 : Except PyError Nat) else Except.error ⟨"E", "x"⟩) =
      ⟨.ok 7, 3, [1, 2]⟩ := by
  norm_num [retry_decorator_run, retryAux]

/- ----------------------------------------------------------------
Circuit breaker (src/11_error_handling.py lines 50-96).
---------------------------------------------------------------- -/

/-- The `state` string of `CircuitBreaker`: `'CLOSED'`, `'OPEN'` or
`'HALF_OPEN'`. -/
inductive CBState where
  | CLOSED
  | OPEN
  | HALF_OPEN
deriving DecidableEq, Repr

/-- The mutable fields of `CircuitBreaker.__init__`
(src/11_error_handling.py lines 56-61). -/
structure CircuitBreaker where
  failure_threshold : Nat
  timeout : ℚ
  failure_count : Nat
  last_failure_time : Option ℚ
  state : CBState
deriving DecidableEq, Repr

/-- `CircuitBreaker(failure_threshold, timeout)`: `failure_count = 0`,
`last_failure_time = None`, `state = 'CLOSED'`. -/
def CircuitBreaker.init (failure_threshold : Nat) (timeout : ℚ) : CircuitBreaker :=
  ⟨failure_threshold, timeout, 0, none, .CLOSED⟩

/-- Result of the OPEN-state gate at the top of `CircuitBreaker.call`
(src/11_error_handling.py lines 68-74): either proceed to the attempt
with a possibly updated state, or raise without invoking the operation. -/
inductive GateResult where
  | proceed (cb : CircuitBreaker)
  | reject (e : PyError)
deriving DecidableEq

/-- Lines 68-74 of src/11_error_handling.py: when OPEN, move to HALF_OPEN
if `time.time() - self.last_failure_time > self.timeout`, otherwise raise
`Exception("Circuit breaker is OPEN - service unavailable")`.  When
`last_failure_time` is `None` (unreachable from the initial state while
OPEN), the subtraction itself raises a `TypeError` in Python. -/
def CircuitBreaker.gate (cb : CircuitBreaker) (now : ℚ) : GateResult :=
  if cb.state = .OPEN then
    match cb.last_failure_time with
    | some t =>
      if now - t > cb.timeout then .proceed { cb with state := .HALF_OPEN }
      else .reject circuitOpenError
    | none => .reject ⟨"TypeError", "unsupported operand type for subtraction with NoneType"⟩
  else .proceed cb

/-- Lines 76-96 of src/11_error_handling.py: invoke the operation.  On
success, a HALF_OPEN breaker becomes CLOSED with `failure_count = 0`.  On
failure, `failure_count += 1`, `last_failure_time = time.time()`, the
state becomes OPEN when `failure_count >= failure_threshold`, and the
operation's exception is re-raised. -/
def CircuitBreaker.attempt (cb : CircuitBreaker) (now : ℚ)
    (op : Except PyError α) : CircuitBreaker × Except PyError α :=
  match op with
  | .ok v =>
    (if cb.state = .HALF_OPEN then { cb with state := .CLOSED, failure_count := 0 } else cb,
     .ok v)
  | .error e =>
    ({ cb with
        failure_count := cb.failure_count + 1,
        last_failure_time := some now,
        state := if cb.failure_threshold ≤ cb.failure_count + 1 then .OPEN else cb.state },
     .error e)

/-- `CircuitBreaker.call(func)` at time `now`, where `op` is the outcome
the wrapped operation would produce if invoked.  Returns the new breaker
state, the returned value or raised exception, and whether the wrapped
operation was invoked. -/
def CircuitBreaker.call (cb : CircuitBreaker) (now : ℚ)
    (op : Except PyError α) : CircuitBreaker × Except PyError α × Bool :=
  match cb.gate now with
  | .proceed cb2 =>
    let r := cb2.attempt now op
    (r.1, r.2, true)
  | .reject e => (cb, .error e, false)

/-- States of one breaker instance reachable from `cb₀` by any sequence of
calls at nondecreasing times.  `Reachable cb₀ cb now` means `cb` is the
breaker's state at wall-clock time `now` (every call so far happened at a
time ≤ `now`); `time.time()` is nondecreasing across calls. -/
inductive Reachable (cb₀ : CircuitBreaker) : CircuitBreaker → ℚ → Prop where
  | init (now : ℚ) : Reachable cb₀ cb₀ now
  | step {cb : CircuitBreaker} {now now2 : ℚ} (op : Except PyError Unit)
      (h : Reachable cb₀ cb now) (hle : now ≤ now2) :
      Reachable cb₀ (CircuitBreaker.call cb now2 op).1 now2
  | wait {cb : CircuitBreaker} {now now2 : ℚ} (h : Reachable cb₀ cb now)
      (hle : now ≤ now2) : Reachable cb₀ cb now2

example :
    (CircuitBreaker.call (CircuitBreaker.init 1 60) 0
      (Except.error ⟨"E", "x"⟩ : Except PyError Unit)).1 =
      ⟨1, 60, 1, some 0, .OPEN⟩ := by
  simp [CircuitBreaker.call, CircuitBreaker.gate, CircuitBreaker.attempt,
    CircuitBreaker.init]

example :
    (CircuitBreaker.call (⟨1, 60, 1, some 0, .OPEN⟩ : CircuitBreaker) 10
      (Except.ok () : Except PyError Unit)) =
      (⟨1, 60, 1, some 0, .OPEN⟩, Except.error circuitOpenError, false) := by
  simp [CircuitBreaker.call, CircuitBreaker.gate]
  norm_num

example :
    (CircuitBreaker.call (⟨1, 60, 1, some 0, .OPEN⟩ : CircuitBreaker) 100
      (Except.ok () : Except PyError Unit)) =
      (⟨1, 60, 0, some 0, .CLOSED⟩, Except.ok (), true) := by
  simp [CircuitBreaker.call, CircuitBreaker.gate, CircuitBreaker.attempt]
  norm_num

/- ----------------------------------------------------------------
Error aggregator (src/11_error_handling.py lines 111-160).

`self.error_counts` is a Python dict from error type name to count;
modelled as an insertion-ordered association list.  Assigning to an
existing key updates it in place (position unchanged); assigning a new
key appends it, exactly as CPython dicts behave.
---------------------------------------------------------------- -/

/-- `d.get(k, 0)` on the counts dict: the value at the key, 0 when
absent. -/
def dictGet : List (String × Nat) → String → Nat
  | [], _ => 0
  | p :: d, k => if p.1 = k then p.2 else dictGet d k

/-- `d[k] = v` on the counts dict: update in place when the key exists
(position unchanged), append otherwise. -/
def dictSet (d : List (String × Nat)) (k : String) (v : Nat) : List (String × Nat) :=
  if k ∈ d.map Prod.fst then
    d.map (fun p => if p.1 = k then (k, v) else p)
  else d ++ [(k, v)]

/-- One entry of `self.errors` as built by `record_error`
(src/11_error_handling.py lines 126-131): timestamp, `type(error).__name__`,
`str(error)` and the context string. -/
structure ErrorRecord where
  timestamp : ℚ
  ty : String
  message : String
  context : String
deriving DecidableEq, Repr

/-- `ErrorAggregator.__init__`: `self.errors = []`,
`self.error_counts = {}` — here both fields of the state. -/
structure ErrorAggregator where
  errors : List ErrorRecord
  error_counts : List (String × Nat)
deriving DecidableEq, Repr

/-- `ErrorAggregator.record_error(error, context)` at time `now`
(src/11_error_handling.py lines 121-139): append the record and bump
`error_counts[type] = error_counts.get(type, 0) + 1`. -/
def ErrorAggregator.record_error (agg : ErrorAggregator) (now : ℚ)
    (error : PyError) (context : String) : ErrorAggregator :=
  let info : ErrorRecord := ⟨now, error.ty, error.msg, context⟩
  { errors := agg.errors ++ [info],
    error_counts := dictSet agg.error_counts error.ty
      (dictGet agg.error_counts error.ty + 1) }

/-- Stable insertion (descending by count) used to model Python's
`sorted(items, key=lambda x: x[1], reverse=True)`: the new element goes
before the first existing element with a count ≤ its own, so elements
with equal counts keep their original relative order. -/
def insertByCountDesc (p : String × Nat) : List (String × Nat) → List (String × Nat)
  | [] => [p]
  | q :: qs => if p.2 < q.2 then q :: insertByCountDesc p qs else p :: q :: qs

/-- Python's stable `sorted(d.items(), key=lambda x: x[1], reverse=True)`. -/
def sortedByCountDesc : List (String × Nat) → List (String × Nat)
  | [] => []
  | p :: ps => insertByCountDesc p (sortedByCountDesc ps)

/-- The dict returned by `get_error_summary`
(src/11_error_handling.py lines 152-160). -/
structure ErrorSummary where
  total_errors : Nat
  error_rate : ℚ
  top_errors : List (String × Nat)
deriving DecidableEq, Repr

/-- `ErrorAggregator.get_error_summary(time_window)` at time `now`
(src/11_error_handling.py lines 141-160): filter `self.errors` by
`current_time - e['timestamp'] <= time_window`, report the filtered
count, the per-minute rate `count / (time_window / 60)`, and the first 5
entries of `self.error_counts` sorted by count descending — note the
counts are the cumulative ones over all recorded errors, not the
filtered ones. -/
def ErrorAggregator.get_error_summary (agg : ErrorAggregator) (now : ℚ)
    (time_window : ℚ) : ErrorSummary :=
  let recent_errors := agg.errors.filter (fun e => decide (now - e.timestamp ≤ time_window))
  { total_errors := recent_errors.length,
    error_rate := (recent_errors.length : ℚ) / (time_window / 60),
    top_errors := (sortedByCountDesc agg.error_counts).take 5 }

/-- Fold a list of `(time, error, context)` recordings into a fresh
aggregator. -/
def applyRecordings (recs : List (ℚ × PyError × String)) : ErrorAggregator :=
  recs.foldl (fun a r => a.record_error r.1 r.2.1 r.2.2) ⟨[], []⟩

/-- The keys of a list of strings in first-seen order (CPython dict key
order after repeated insertions). -/
def firstSeen (l : List String) : List String :=
  l.foldl (fun acc k => if k ∈ acc then acc else acc ++ [k]) []

/-- The canonical contents of the counts dict after recording the error
type names `l` in order: each distinct name in first-seen order, mapped
to its number of occurrences in `l`. -/
def occurrenceCounts (l : List String) : List (String × Nat) :=
  (firstSeen l).map (fun k => (k, l.count k))

example :
    applyRecordings [(0, ⟨"X", "m"⟩, ""), (0, ⟨"Y", "m"⟩, ""), (0, ⟨"X", "m"⟩, "")] =
      ⟨[⟨0, "X", "m", ""⟩, ⟨0, "Y", "m", ""⟩, ⟨0, "X", "m", ""⟩], [("X", 2), ("Y", 1)]⟩ := by
  simp [applyRecordings, ErrorAggregator.record_error, dictGet, dictSet]

example :
    sortedByCountDesc [("A", 2), ("B", 3), ("C", 2)] = [("B", 3), ("A", 2), ("C", 2)] := by
  simp [sortedByCountDesc, insertByCountDesc]

example :
    occurrenceCounts ["X", "Y", "X"] = [("X", 2), ("Y", 1)] := by
  simp [occurrenceCounts, firstSeen]

/- ----------------------------------------------------------------
Concurrent health checker (src/15_async_operations.py lines 14-62).

`async_health_check` performs `session.get(url)` inside a try/except
that catches every `Exception` (including the aiohttp timeout) and
converts it into a `healthy: False` entry, so the coroutine always
returns normally.  The network is modelled as a map from the url to the
outcome of `session.get` (a status code or a raised exception) together
with the elapsed time observed for that url.

`asyncio.gather(*tasks, return_exceptions=True)` stores each task's
result at the index of the task regardless of the order in which the
event loop completes them; the completion order is modelled explicitly
as a schedule of task indices.
---------------------------------------------------------------- -/

/-- The dict returned by `async_health_check` (either shape of
src/15_async_operations.py lines 25-37), and by the defensive
exception branch of `batch_health_checks` (lines 54-58, which has no
url/response-time keys). -/
structure HealthResult where
  url : Option String
  status_code : Option Nat
  error : Option String
  response_time : Option ℚ
  healthy : Bool
deriving DecidableEq, Repr

/-- `async_health_check(session, url)` (src/15_async_operations.py lines
14-37): on a response, report the status and `healthy = (status == 200)`;
on any exception, report `error = str(e)` and `healthy = False`. -/
def async_health_check (net : String → Except PyError Nat × ℚ) (url : String) :
    HealthResult :=
  match net url with
  | (.ok status, rt) => ⟨some url, some status, none, some rt, status == 200⟩
  | (.error e, rt) => ⟨some url, none, some e.msg, some rt, false⟩

/-- One completion event: task `i` finishes and stores its result in
slot `i` (indices out of range are ignored). -/
def scheduleStep (tasks : List α) (slots : List (Option α)) (i : Nat) :
    List (Option α) :=
  match tasks.get? i with
  | some v => slots.set i (some v)
  | none => slots

/-- Apply a completion schedule: each completed task index stores that
task's result in its own slot. -/
def runSchedule (tasks : List α) (schedule : List Nat) : List (Option α) :=
  schedule.foldl (scheduleStep tasks) (List.replicate tasks.length none)

/-- `asyncio.gather(*tasks)` under completion order `schedule`: the
ordered result list once every slot has been filled, `none` if some task
never completed. -/
def gatherOrdered (tasks : List α) (schedule : List Nat) : Option (List α) :=
  let slots := runSchedule tasks schedule
  if slots.all Option.isSome then some slots.reduceOption else none

/-- The result-processing loop of `batch_health_checks`
(src/15_async_operations.py lines 51-60): an entry that is an exception
object becomes a `healthy: False` record; anything else passes through. -/
def processGatherEntry : Except PyError HealthResult → HealthResult
  | .error e => ⟨none, none, some e.msg, none, false⟩
  | .ok r => r

/-- `batch_health_checks(urls)` (src/15_async_operations.py lines 39-62)
under completion order `schedule`: one `async_health_check` task per url
in order, gathered with `return_exceptions=True`, then processed.  Each
task returns normally (its try/except catches every exception), so each
gathered entry is `ok`. -/
def batch_health_checks (net : String → Except PyError Nat × ℚ)
    (urls : List String) (schedule : List Nat) : Option (List HealthResult) :=
  let tasks : List (Except PyError HealthResult) :=
    urls.map (fun url => Except.ok (async_health_check net url))
  (gatherOrdered tasks schedule).map (fun results => results.map processGatherEntry)

example :
    batch_health_checks
      (fun u => if u = "a" then (Except.ok 200, 1) else (Except.error ⟨"TimeoutError", "timeout"⟩, 5))
      ["a", "b"] [1, 0] =
      some [⟨some "a", some 200, none, some 1, true⟩,
            ⟨some "b", none, some "timeout", some 5, false⟩] := by
  simp [batch_health_checks, gatherOrdered, runSchedule, scheduleStep,
    async_health_check, processGatherEntry, List.replicate]

/- ----------------------------------------------------------------
Lemmas about the retry loops.
---------------------------------------------------------------- -/

/-- Inside the loop (at least one iteration left), the trailing
`raise last_exception` is never the outcome, and a loop-raised error is
the error of the final allowed attempt. -/
lemma retryAux_in_loop (op : Nat → Except PyError α) (d b : ℚ) (ma : Nat) :
    ∀ (fuel attempt : Nat) (last : Option PyError), attempt + fuel = ma → 1 ≤ fuel →
      (∀ e, (retryAux op d b ma fuel attempt last).outcome ≠ .raisedTrailing e) ∧
      ((retryAux op d b ma fuel attempt last).outcome ≠ .raisedNoneTrailing) ∧
      (∀ e, (retryAux op d b ma fuel attempt last).outcome = .raisedLoop e →
        op (ma - 1) = .error e) := by
  intro fuel
  induction fuel with
  | zero => omega
  | succ f ih =>
    intro attempt last hma _
    cases f with
    | zero =>
      have hlast : attempt = ma - 1 := by omega
      cases hop : op attempt with
      | ok v => simp [retryAux, hop]
      | error e =>
        simp only [retryAux, hop, if_pos hlast]
        refine ⟨by simp, by simp, ?_⟩
        intro e2 he2
        simp only [RetryOutcome.raisedLoop.injEq] at he2
        rw [← he2, ← hlast]
        exact hop
    | succ f2 =>
      have hne : attempt ≠ ma - 1 := by omega
      cases hop : op attempt with
      | ok v => simp [retryAux, hop]
      | error e =>
        have := ih (attempt + 1) (some e) (by omega) (by omega)
        simp only [retryAux, hop, if_neg hne]
        exact this

/-- One unfolding of the `retry_decorator` loop body. -/
lemma retryAux_step (op : Nat → Except PyError α) (d b : ℚ) (ma fuel attempt : Nat)
    (last : Option PyError) :
    retryAux op d b ma (fuel + 1) attempt last =
      match op attempt with
      | .ok v => ⟨.ok v, 1, []⟩
      | .error e =>
        if attempt = ma - 1 then ⟨.raisedLoop e, 1, []⟩
        else
          let r := retryAux op d b ma fuel (attempt + 1) (some e)
          ⟨r.outcome, r.invocations + 1, d * b ^ attempt :: r.sleeps⟩ := rfl

/-- When every attempt fails, the `retry_decorator` loop makes exactly
`fuel` invocations, raises the error of the last attempt inside the loop,
and sleeps `delay * backoff ^ k` after each non-final attempt `k`. -/
lemma retryAux_all_fail {α : Type} (err : Nat → PyError) (d b : ℚ) (ma : Nat) :
    ∀ (fuel attempt : Nat) (last : Option PyError), attempt + fuel = ma → 1 ≤ fuel →
      retryAux (fun k => (Except.error (err k) : Except PyError α)) d b ma fuel attempt last =
        ⟨.raisedLoop (err (ma - 1)), fuel,
          (List.range' attempt (fuel - 1)).map (fun k => d * b ^ k)⟩ := by
  intro fuel
  induction fuel with
  | zero => omega
  | succ f ih =>
    intro attempt last hma _
    by_cases hl : attempt = ma - 1
    · have hf : f = 0 := by omega
      subst hf
      rw [retryAux_step]
      simp [if_pos hl, hl]
    · have hrec := ih (attempt + 1) (some (err attempt)) (by omega) (by omega)
      rw [retryAux_step]
      simp only [if_neg hl, hrec]
      rw [show f + 1 - 1 = (f - 1) + 1 by omega, List.range'_succ]
      simp

/-- One unfolding of the `retry_with_backoff` loop body. -/
lemma retryWbAux_step (op : Nat → Except PyError α) (b : ℚ) (mr fuel attempt : Nat)
    (last : Option PyError) :
    retryWbAux op b mr (fuel + 1) attempt last =
      match op attempt with
      | .ok v => ⟨.ok v, 1, []⟩
      | .error e =>
        if attempt = mr then ⟨.raisedLoop e, 1, []⟩
        else
          let r := retryWbAux op b mr fuel (attempt + 1) (some e)
          ⟨r.outcome, r.invocations + 1, b ^ attempt :: r.sleeps⟩ := rfl

/-- Same for `retry_with_backoff`: `fuel` invocations, error of attempt
`max_retries` raised inside the loop, sleeps `backoff_factor ^ k`. -/
lemma retryWbAux_all_fail {α : Type} (err : Nat → PyError) (b : ℚ) (mr : Nat) :
    ∀ (fuel attempt : Nat) (last : Option PyError), attempt + fuel = mr + 1 → 1 ≤ fuel →
      retryWbAux (fun k => (Except.error (err k) : Except PyError α)) b mr fuel attempt last =
        ⟨.raisedLoop (err mr), fuel,
          (List.range' attempt (fuel - 1)).map (fun k => b ^ k)⟩ := by
  intro fuel
  induction fuel with
  | zero => omega
  | succ f ih =>
    intro attempt last hma _
    by_cases hl : attempt = mr
    · have hf : f = 0 := by omega
      subst hf
      rw [retryWbAux_step]
      simp [if_pos hl, hl]
    · have hrec := ih (attempt + 1) (some (err attempt)) (by omega) (by omega)
      rw [retryWbAux_step]
      simp only [if_neg hl, hrec]
      rw [show f + 1 - 1 = (f - 1) + 1 by omega, List.range'_succ]
      simp

/-- `retry_with_backoff` loop: the trailing raise is never the outcome
(its loop always has `max_retries + 1 ≥ 1` iterations), and a loop-raised
error is the error of attempt `max_retries`. -/
lemma retryWbAux_in_loop (op : Nat → Except PyError α) (b : ℚ) (mr : Nat) :
    ∀ (fuel attempt : Nat) (last : Option PyError), attempt + fuel = mr + 1 → 1 ≤ fuel →
      (∀ e, (retryWbAux op b mr fuel attempt last).outcome ≠ .raisedTrailing e) ∧
      ((retryWbAux op b mr fuel attempt last).outcome ≠ .raisedNoneTrailing) ∧
      (∀ e, (retryWbAux op b mr fuel attempt last).outcome = .raisedLoop e →
        op mr = .error e) := by
  intro fuel
  induction fuel with
  | zero => omega
  | succ f ih =>
    intro attempt last hma _
    cases f with
    | zero =>
      have hlast : attempt = mr := by omega
      cases hop : op attempt with
      | ok v => simp [retryWbAux, hop]
      | error e =>
        simp only [retryWbAux, hop, if_pos hlast]
        refine ⟨by simp, by simp, ?_⟩
        intro e2 he2
        simp only [RetryOutcome.raisedLoop.injEq] at he2
        rw [← he2, ← hlast]
        exact hop
    | succ f2 =>
      have hne : attempt ≠ mr := by omega
      cases hop : op attempt with
      | ok v => simp [retryWbAux, hop]
      | error e =>
        have := ih (attempt + 1) (some e) (by omega) (by omega)
        simp only [retryWbAux, hop, if_neg hne]
        exact this

/-- The repository's example transient error
(`ConnectionError("API temporarily unavailable")`,
src/11_error_handling.py line 170). -/
def connectionError : PyError := ⟨"ConnectionError", "API temporarily unavailable"⟩

/-- C2 (counterexample): with `max_attempts = 3` on an always-failing
operation, `retry_decorator` terminates by re-raising the operation's own
last exception unchanged — an error of class `"ConnectionError"`, not any
distinct `ExhaustedRetries` kind — and the raised error is identical when
`max_attempts = 5`, so it carries no attempt count.  Moreover
`retry_with_backoff(max_retries=3)` invokes the operation 4 times, not 3. -/
theorem C2_counterexample :
    (retry_decorator_run 3 1 2
        (fun _ => (Except.error connectionError : Except PyError Unit))).outcome =
      RetryOutcome.raisedLoop connectionError ∧
    (retry_decorator_run 5 1 2
        (fun _ => (Except.error connectionError : Except PyError Unit))).outcome =
      RetryOutcome.raisedLoop connectionError ∧
    connectionError.ty = "ConnectionError" ∧
    ¬ connectionError.ty = "ExhaustedRetries" ∧
    (retry_with_backoff_run 3 2
        (fun _ => (Except.error connectionError : Except PyError Unit))).invocations = 4 := by
  refine ⟨?_, ?_, rfl, by decide, ?_⟩
  · norm_num [retry_decorator_run, retryAux]
  · norm_num [retry_decorator_run, retryAux]
  · norm_num [retry_with_backoff_run, retryWbAux]

/-- C2 (amended): an operation failing on every invocation, run through
`retry_decorator` with `max_attempts = 3`, is invoked exactly 3 times and
the terminal failure re-raises the last underlying error itself (no
`ExhaustedRetries` wrapper carrying an attempt count exists in the code);
run through `retry_with_backoff` with `max_retries = 3` it is invoked 4
times (that parameter counts retries after the first attempt). -/
theorem C2_retry_exhaustion (d b : ℚ) (err : Nat → PyError) :
    retry_decorator_run 3 d b (fun k => (Except.error (err k) : Except PyError Unit)) =
      ⟨.raisedLoop (err 2), 3, [d * b ^ 0, d * b ^ 1]⟩ ∧
    retry_with_backoff_run 3 b (fun k => (Except.error (err k) : Except PyError Unit)) =
      ⟨.raisedLoop (err 3), 4, [b ^ 0, b ^ 1, b ^ 2]⟩ := by
  constructor
  · have h := retryAux_all_fail (α := Unit) err d b 3 3 0 none (by omega) (by omega)
    simpa [retry_decorator_run, List.range'] using h
  · have h := retryWbAux_all_fail (α := Unit) err b 3 4 0 none (by omega) (by omega)
    simpa [retry_with_backoff_run, List.range'] using h

/-- C7: the delay slept after each failed non-final attempt `k` of
`retry_decorator` is exactly `wait_time delay backoff k
= delay * backoff ^ k` (line 63 of src/20_decorators_context.py),
deterministically with no jitter; with `delay = 1, backoff = 2` the
formula gives `[1, 2, 4, 8]` at attempt indices 0-3; and
`retry_with_backoff` sleeps `backoff_factor ^ k` (the `baseDelay = 1`
instance of the formula). -/
theorem C7_backoff_formula (d b : ℚ) (hd : 0 < d) (hb : 1 ≤ b) (ma mr : Nat)
    (err : Nat → PyError) :
    (retry_decorator_run ma d b (fun k => (Except.error (err k) : Except PyError Unit))).sleeps =
      (List.range (ma - 1)).map (wait_time d b) ∧
    (∀ a : Nat, wait_time d b a = d * b ^ a) ∧
    [wait_time 1 2 0, wait_time 1 2 1, wait_time 1 2 2, wait_time 1 2 3] =
      [(1 : ℚ), 2, 4, 8] ∧
    (retry_with_backoff_run mr b (fun k => (Except.error (err k) : Except PyError Unit))).sleeps =
      (List.range mr).map (fun k => b ^ k) := by
  refine ⟨?_, fun a => rfl, by norm_num [wait_time], ?_⟩
  · cases ma with
    | zero => simp [retry_decorator_run, retryAux]
    | succ m =>
      have h := retryAux_all_fail (α := Unit) err d b (m + 1) (m + 1) 0 none (by omega) (by omega)
      rw [retry_decorator_run, h]
      simp [List.range_eq_range', wait_time]
  · have h := retryWbAux_all_fail (α := Unit) err b mr (mr + 1) 0 none (by omega) (by omega)
    rw [retry_with_backoff_run, h]
    simp [List.range_eq_range']

/-- C7 witness: the theorem at `delay = 1`, `backoff = 2`,
`max_attempts = 4`. -/
theorem C7_backoff_formula_witness :
    (retry_decorator_run 4 1 2
        (fun _ => (Except.error connectionError : Except PyError Unit))).sleeps =
      (List.range 3).map (wait_time 1 2) :=
  (C7_backoff_formula 1 2 (by norm_num) (by norm_num) 4 3 (fun _ => connectionError)).1

/-- C10: for `max_attempts ≥ 1`, the retry loop's terminal failure is
always an error the wrapped operation actually produced on its final
attempt; the trailing `raise last_exception` after the loop (including
the `last_exception = None` case) is never reached.  The same holds for
`retry_with_backoff`, whose loop always has `max_retries + 1 ≥ 1`
iterations. -/
theorem C10_terminal_failure_wellformed {α : Type} (ma : Nat) (d b : ℚ)
    (op : Nat → Except PyError α) (h : 1 ≤ ma) :
    (∀ e, (retry_decorator_run ma d b op).outcome ≠ .raisedTrailing e) ∧
    ((retry_decorator_run ma d b op).outcome ≠ .raisedNoneTrailing) ∧
    (∀ e, (retry_decorator_run ma d b op).outcome = .raisedLoop e →
      op (ma - 1) = .error e) ∧
    (∀ (mr : Nat) (op2 : Nat → Except PyError α),
      (∀ e, (retry_with_backoff_run mr b op2).outcome ≠ .raisedTrailing e) ∧
      ((retry_with_backoff_run mr b op2).outcome ≠ .raisedNoneTrailing) ∧
      (∀ e, (retry_with_backoff_run mr b op2).outcome = .raisedLoop e →
        op2 mr = .error e)) := by
  have h1 := retryAux_in_loop op d b ma ma 0 none (by omega) h
  refine ⟨h1.1, h1.2.1, h1.2.2, ?_⟩
  intro mr op2
  exact retryWbAux_in_loop op2 b mr (mr + 1) 0 none (by omega) (by omega)

/-- C10 witness: the theorem at `max_attempts = 1` with an operation that
always fails with `connectionError`. -/
theorem C10_terminal_failure_wellformed_witness :
    (retry_decorator_run 1 1 2
        (fun _ => (Except.error connectionError : Except PyError Unit))).outcome ≠
      RetryOutcome.raisedNoneTrailing :=
  (C10_terminal_failure_wellformed 1 1 2
    (fun _ => (Except.error connectionError : Except PyError Unit)) (by norm_num)).2.1

/- ----------------------------------------------------------------
Circuit breaker invariants.
---------------------------------------------------------------- -/

/-- Invariant of a breaker created as `CircuitBreaker.init thr tmo`, at
wall-clock time `now`: the configuration is unchanged, the stored state
is never HALF_OPEN between calls, a CLOSED breaker has strictly fewer
failures than the threshold, and an OPEN breaker has reached the
threshold and carries a last-failure time that is not in the future. -/
def CBInv (thr : Nat) (tmo : ℚ) (cb : CircuitBreaker) (now : ℚ) : Prop :=
  cb.failure_threshold = thr ∧ cb.timeout = tmo ∧ cb.state ≠ .HALF_OPEN ∧
  (cb.state = .CLOSED → cb.failure_count < thr) ∧
  (cb.state = .OPEN → thr ≤ cb.failure_count ∧
    ∃ t, cb.last_failure_time = some t ∧ t ≤ now)

lemma cbInv_init (thr : Nat) (tmo : ℚ) (hthr : 0 < thr) (now : ℚ) :
    CBInv thr tmo (CircuitBreaker.init thr tmo) now := by
  refine ⟨rfl, rfl, by simp [CircuitBreaker.init], ?_, ?_⟩ <;>
    simp [CircuitBreaker.init, hthr]

lemma cbInv_mono (thr : Nat) (tmo : ℚ) (cb : CircuitBreaker) (now now2 : ℚ)
    (hle : now ≤ now2) (h : CBInv thr tmo cb now) : CBInv thr tmo cb now2 := by
  obtain ⟨h1, h2, h3, h4, h5⟩ := h
  refine ⟨h1, h2, h3, h4, fun hs => ?_⟩
  obtain ⟨hc, t, ht, htle⟩ := h5 hs
  exact ⟨hc, t, ht, le_trans htle hle⟩

lemma cbInv_step (thr : Nat) (tmo : ℚ) (hthr : 0 < thr) (cb : CircuitBreaker)
    (now now2 : ℚ) (op : Except PyError α) (hle : now ≤ now2)
    (h : CBInv thr tmo cb now) : CBInv thr tmo (cb.call now2 op).1 now2 := by
  obtain ⟨h1, h2, h3, h4, h5⟩ := h
  by_cases hs : cb.state = .OPEN
  · obtain ⟨hc, t, ht, htle⟩ := h5 hs
    by_cases htime : now2 - t > cb.timeout
    · -- OPEN → HALF_OPEN, then the attempt runs
      cases op with
      | ok v =>
        have hres : cb.call now2 (Except.ok v) =
            ({ cb with state := .CLOSED, failure_count := 0 }, Except.ok v, true) := by
          simp [CircuitBreaker.call, CircuitBreaker.gate, if_pos hs, ht, if_pos htime,
            CircuitBreaker.attempt]
        rw [hres]
        exact ⟨by simpa using h1, by simpa using h2, by simp,
          fun _ => by simpa using hthr, fun habs => by simp at habs⟩
      | error e =>
        have hth2 : cb.failure_threshold ≤ cb.failure_count + 1 := by rw [h1]; omega
        have hres : cb.call now2 (Except.error e : Except PyError α) =
            ({ cb with failure_count := cb.failure_count + 1, last_failure_time := some now2, state := .OPEN }, Except.error e, true) := by
          simp [CircuitBreaker.call, CircuitBreaker.gate, if_pos hs, ht, if_pos htime,
            CircuitBreaker.attempt, hth2]
        rw [hres]
        refine ⟨by simpa using h1, by simpa using h2, by simp,
          fun habs => by simp at habs, fun _ => ⟨by simp; omega, now2, by simp, le_refl now2⟩⟩
    · -- rejected, state unchanged
      have hres : cb.call now2 op = (cb, Except.error circuitOpenError, false) := by
        simp [CircuitBreaker.call, CircuitBreaker.gate, if_pos hs, ht, if_neg htime]
      rw [hres]
      exact cbInv_mono thr tmo cb now now2 hle ⟨h1, h2, h3, h4, h5⟩
  · -- not OPEN; by the invariant the stored state is CLOSED
    cases op with
    | ok v =>
      have hres : cb.call now2 (Except.ok v) = (cb, Except.ok v, true) := by
        simp [CircuitBreaker.call, CircuitBreaker.gate, if_neg hs,
          CircuitBreaker.attempt, if_neg h3]
      rw [hres]
      exact cbInv_mono thr tmo cb now now2 hle ⟨h1, h2, h3, h4, h5⟩
    | error e =>
      by_cases hth : cb.failure_threshold ≤ cb.failure_count + 1
      · have hres : cb.call now2 (Except.error e : Except PyError α) =
            ({ cb with failure_count := cb.failure_count + 1, last_failure_time := some now2, state := .OPEN }, Except.error e, true) := by
          simp [CircuitBreaker.call, CircuitBreaker.gate, if_neg hs,
            CircuitBreaker.attempt, hth]
        rw [hres]
        refine ⟨by simpa using h1, by simpa using h2, by simp,
          fun habs => by simp at habs, fun _ => ⟨by simp; omega, now2, by simp, le_refl now2⟩⟩
      · have hres : cb.call now2 (Except.error e : Except PyError α) =
            ({ cb with failure_count := cb.failure_count + 1, last_failure_time := some now2, state := cb.state }, Except.error e, true) := by
          simp [CircuitBreaker.call, CircuitBreaker.gate, if_neg hs,
            CircuitBreaker.attempt, hth]
        rw [hres]
        refine ⟨by simpa using h1, by simpa using h2, by simpa using h3,
          fun _ => by simp; omega, fun habs => absurd (by simpa using habs) hs⟩

/-- Every state reachable from `CircuitBreaker.init thr tmo` satisfies the
invariant. -/
lemma reachable_cbInv (thr : Nat) (tmo : ℚ) (hthr : 0 < thr)
    {cb : CircuitBreaker} {now : ℚ}
    (h : Reachable (CircuitBreaker.init thr tmo) cb now) : CBInv thr tmo cb now := by
  induction h with
  | init now => exact cbInv_init thr tmo hthr now
  | step op h hle ih => exact cbInv_step _ _ hthr _ _ _ op hle ih
  | wait h hle ih => exact cbInv_mono _ _ _ _ _ hle ih

/-- A breaker call whose wrapped operation fails with `e`, returning the
updated breaker. -/
def failingCall (cb : CircuitBreaker) (t : ℚ) (e : PyError) : CircuitBreaker :=
  (CircuitBreaker.call cb t (Except.error e : Except PyError Unit)).1

/-- C1: from the initial CLOSED state with `failure_threshold = 3`, three
failing calls leave the breaker OPEN (the first two leave it CLOSED), and
a fourth call before the timeout has elapsed since the third failure is
rejected with the circuit-open exception, the wrapped operation not being
invoked and the breaker unchanged. -/
theorem C1_breaker_opens (tmo t1 t2 t3 t4 : ℚ) (e1 e2 e3 : PyError) {α : Type}
    (op : Except PyError α) (h34 : t3 ≤ t4) (hel : t4 - t3 < tmo) :
    (failingCall (CircuitBreaker.init 3 tmo) t1 e1).state = CBState.CLOSED ∧
    (failingCall (failingCall (CircuitBreaker.init 3 tmo) t1 e1) t2 e2).state =
      CBState.CLOSED ∧
    (failingCall (failingCall (failingCall (CircuitBreaker.init 3 tmo) t1 e1) t2 e2)
      t3 e3).state = CBState.OPEN ∧
    CircuitBreaker.call
        (failingCall (failingCall (failingCall (CircuitBreaker.init 3 tmo) t1 e1) t2 e2)
          t3 e3) t4 op =
      (failingCall (failingCall (failingCall (CircuitBreaker.init 3 tmo) t1 e1) t2 e2)
        t3 e3, Except.error circuitOpenError, false) := by
  have hng : ¬ (t4 - t3 > tmo) := by linarith
  have h1 : failingCall (CircuitBreaker.init 3 tmo) t1 e1 = ⟨3, tmo, 1, some t1, .CLOSED⟩ := by
    simp [failingCall, CircuitBreaker.call, CircuitBreaker.gate, CircuitBreaker.attempt,
      CircuitBreaker.init]
  have h2 : failingCall (⟨3, tmo, 1, some t1, .CLOSED⟩ : CircuitBreaker) t2 e2 =
      ⟨3, tmo, 2, some t2, .CLOSED⟩ := by
    simp [failingCall, CircuitBreaker.call, CircuitBreaker.gate, CircuitBreaker.attempt]
  have h3 : failingCall (⟨3, tmo, 2, some t2, .CLOSED⟩ : CircuitBreaker) t3 e3 =
      ⟨3, tmo, 3, some t3, .OPEN⟩ := by
    simp [failingCall, CircuitBreaker.call, CircuitBreaker.gate, CircuitBreaker.attempt]
  rw [h1, h2, h3]
  refine ⟨rfl, rfl, rfl, ?_⟩
  simp [CircuitBreaker.call, CircuitBreaker.gate, hng]

/-- The repository's always-failing example service:
`raise Exception("Service is down")` (src/11_error_handling.py line 178). -/
def serviceDownError : PyError := ⟨"Exception", "Service is down"⟩

/-- The breaker `CircuitBreaker(failure_threshold=1, timeout=1)` after one
failing call at time 0: OPEN with `failure_count = 1`,
`last_failure_time = 0`. -/
def cbOpenOne : CircuitBreaker :=
  (CircuitBreaker.call (CircuitBreaker.init 1 1) 0
    (Except.error serviceDownError : Except PyError Unit)).1

lemma cbOpenOne_eq : cbOpenOne = ⟨1, 1, 1, some 0, .OPEN⟩ := by
  simp [cbOpenOne, CircuitBreaker.call, CircuitBreaker.gate, CircuitBreaker.attempt,
    CircuitBreaker.init]

/-- C1 witness: the theorem at `timeout = 60` and all calls at time 0. -/
theorem C1_breaker_opens_witness :
    CircuitBreaker.call
        (failingCall (failingCall (failingCall (CircuitBreaker.init 3 60) 0 serviceDownError)
          0 serviceDownError) 0 serviceDownError) 0 (Except.ok () : Except PyError Unit) =
      (failingCall (failingCall (failingCall (CircuitBreaker.init 3 60) 0 serviceDownError)
        0 serviceDownError) 0 serviceDownError, Except.error circuitOpenError, false) :=
  (C1_breaker_opens 60 0 0 0 0 serviceDownError serviceDownError serviceDownError
    (Except.ok ()) (by norm_num) (by norm_num)).2.2.2

/-- C3: if a reachable breaker is OPEN and the elapsed time since its
last failure strictly exceeds the timeout, the next call moves it to
HALF_OPEN at the gate and invokes the operation; on success the breaker
becomes CLOSED with `failure_count = 0` and the value is returned, on
failure it returns to OPEN with `last_failure_time` refreshed to the call
time and the error re-raised. -/
theorem C3_recovery (thr : Nat) (tmo : ℚ) (cb : CircuitBreaker) (now0 t now : ℚ)
    {α : Type} (op : Except PyError α)
    (hthr : 0 < thr) (hr : Reachable (CircuitBreaker.init thr tmo) cb now0)
    (hst : cb.state = CBState.OPEN) (hlft : cb.last_failure_time = some t)
    (hnow : now0 ≤ now) (helapsed : tmo < now - t) :
    cb.gate now = GateResult.proceed { cb with state := CBState.HALF_OPEN } ∧
    (cb.call now op).2.2 = true ∧
    (∀ v, op = Except.ok v →
      (cb.call now op).1.state = CBState.CLOSED ∧
      (cb.call now op).1.failure_count = 0 ∧
      (cb.call now op).2.1 = Except.ok v) ∧
    (∀ e, op = Except.error e →
      (cb.call now op).1.state = CBState.OPEN ∧
      (cb.call now op).1.last_failure_time = some now ∧
      (cb.call now op).2.1 = Except.error e) := by
  obtain ⟨h1, h2, h3, h4, h5⟩ := reachable_cbInv thr tmo hthr hr
  have hfc := (h5 hst).1
  have htime : now - t > cb.timeout := by rw [h2]; exact helapsed
  have hgate : cb.gate now = GateResult.proceed { cb with state := CBState.HALF_OPEN } := by
    simp [CircuitBreaker.gate, if_pos hst, hlft, if_pos htime]
  refine ⟨hgate, ?_, ?_, ?_⟩
  · simp [CircuitBreaker.call, hgate]
  · rintro v rfl
    have hres : cb.call now (Except.ok v) =
        ({ cb with state := .CLOSED, failure_count := 0 }, Except.ok v, true) := by
      simp [CircuitBreaker.call, hgate, CircuitBreaker.attempt]
    rw [hres]
    exact ⟨rfl, rfl, rfl⟩
  · rintro e rfl
    have hth2 : cb.failure_threshold ≤ cb.failure_count + 1 := by rw [h1]; omega
    have hres : cb.call now (Except.error e : Except PyError α) =
        ({ cb with failure_count := cb.failure_count + 1, last_failure_time := some now, state := .OPEN }, Except.error e, true) := by
      simp [CircuitBreaker.call, hgate, CircuitBreaker.attempt, hth2]
    rw [hres]
    exact ⟨rfl, rfl, rfl⟩

/-- C3 witness: the breaker of `cbOpenOne` (OPEN at time 0 with
`timeout = 1`) called at time 3 with a succeeding operation recovers to
CLOSED with `failure_count = 0`. -/
theorem C3_recovery_witness :
    (CircuitBreaker.call cbOpenOne 3 (Except.ok () : Except PyError Unit)).1.state =
      CBState.CLOSED ∧
    (CircuitBreaker.call cbOpenOne 3 (Except.ok () : Except PyError Unit)).1.failure_count = 0 ∧
    (CircuitBreaker.call cbOpenOne 3 (Except.ok () : Except PyError Unit)).2.1 = Except.ok () :=
  (C3_recovery 1 1 cbOpenOne 0 0 3 (Except.ok ()) (by norm_num)
    (Reachable.step (Except.error serviceDownError) (Reachable.init 0) le_rfl)
    (by rw [cbOpenOne_eq]) (by rw [cbOpenOne_eq]) (by norm_num) (by norm_num)).2.2.1 () rfl

/-- C4 (amended): in every reachable state of a breaker with positive
threshold, `state == CLOSED` iff `failure_count < failure_threshold` and
`state == OPEN` iff `failure_count ≥ failure_threshold` (HALF_OPEN is
never a stored between-call state).  The elapsed-time conjunct of the
original claim is dropped: see `C4_counterexample`. -/
theorem C4_state_iff_failure_count (thr : Nat) (tmo : ℚ) (cb : CircuitBreaker)
    (now : ℚ) (hthr : 0 < thr) (hr : Reachable (CircuitBreaker.init thr tmo) cb now) :
    (cb.state = CBState.CLOSED ↔ cb.failure_count < thr) ∧
    (cb.state = CBState.OPEN ↔ thr ≤ cb.failure_count) := by
  obtain ⟨h1, h2, h3, h4, h5⟩ := reachable_cbInv thr tmo hthr hr
  constructor
  · refine ⟨h4, fun hlt => ?_⟩
    cases hcb : cb.state with
    | CLOSED => rfl
    | OPEN => exact absurd hlt (by have := (h5 hcb).1; omega)
    | HALF_OPEN => exact absurd hcb h3
  · refine ⟨fun hs => (h5 hs).1, fun hge => ?_⟩
    cases hcb : cb.state with
    | CLOSED => have := h4 hcb; omega
    | OPEN => rfl
    | HALF_OPEN => exact absurd hcb h3

/-- C4 witness: the amended invariant at the freshly created breaker. -/
theorem C4_state_iff_failure_count_witness :
    (CircuitBreaker.init 1 1).state = CBState.CLOSED ↔
      (CircuitBreaker.init 1 1).failure_count < 1 :=
  (C4_state_iff_failure_count 1 1 (CircuitBreaker.init 1 1) 0 (by norm_num)
    (Reachable.init 0)).1

/-- C4 (counterexample): a reachable state violating the original claim's
`state == OPEN ⟺ ... elapsed < openTimeout`: with `failure_threshold = 1`
and `timeout = 1`, after one failing call at time 0 the stored state at
time 5 is still OPEN (the OPEN → HALF_OPEN transition is lazy), with
`failure_count ≥ threshold` but elapsed time `5 - 0 ≥ timeout`. -/
theorem C4_counterexample :
    Reachable (CircuitBreaker.init 1 1) cbOpenOne 5 ∧
    cbOpenOne.state = CBState.OPEN ∧
    cbOpenOne.last_failure_time = some 0 ∧
    cbOpenOne.failure_threshold ≤ cbOpenOne.failure_count ∧
    ¬ ((5 : ℚ) - 0 < cbOpenOne.timeout) := by
  refine ⟨Reachable.wait (Reachable.step (Except.error serviceDownError)
    (Reachable.init 0) le_rfl) (by norm_num), ?_, ?_, ?_, ?_⟩
  · rw [cbOpenOne_eq]
  · rw [cbOpenOne_eq]
  · rw [cbOpenOne_eq]
  · rw [cbOpenOne_eq]
    norm_num

/-- C6 (code evaluation): the circuit-open rejection is a plain
`Exception` carrying only message text, and the retry loop re-raises the
bare underlying error.  An operation failure whose exception happens to
equal `Exception("Circuit breaker is OPEN - service unavailable")` is
surfaced identically to a genuine open-circuit rejection, so the two are
not distinguishable as distinct typed kinds; and no `ExhaustedRetries`
kind exists — exhausted retries surface the last underlying error
itself. -/
theorem C6_untyped_failures :
    (CircuitBreaker.call (CircuitBreaker.init 1 60) 0
        (Except.error circuitOpenError : Except PyError Unit)).2.1 =
      Except.error circuitOpenError ∧
    (CircuitBreaker.call (⟨1, 60, 1, some 0, .OPEN⟩ : CircuitBreaker) 1
        (Except.ok () : Except PyError Unit)).2.1 = Except.error circuitOpenError ∧
    (CircuitBreaker.call (⟨1, 60, 1, some 0, .OPEN⟩ : CircuitBreaker) 1
        (Except.ok () : Except PyError Unit)).2.2 = false ∧
    (retry_decorator_run 3 1 2
        (fun _ => (Except.error connectionError : Except PyError Unit))).outcome =
      RetryOutcome.raisedLoop connectionError := by
  refine ⟨?_, ?_, ?_, ?_⟩
  · simp [CircuitBreaker.call, CircuitBreaker.gate, CircuitBreaker.attempt,
      CircuitBreaker.init]
  · simp [CircuitBreaker.call, CircuitBreaker.gate]
  · simp [CircuitBreaker.call, CircuitBreaker.gate]
  · norm_num [retry_decorator_run, retryAux]

/- ----------------------------------------------------------------
Lemmas about the error aggregator.
---------------------------------------------------------------- -/

lemma mem_foldl_firstSeen (l : List String) :
    ∀ (acc : List String) (a : String),
      (a ∈ l.foldl (fun acc k => if k ∈ acc then acc else acc ++ [k]) acc) ↔
        a ∈ acc ∨ a ∈ l := by
  induction l with
  | nil => intro acc a; simp
  | cons x xs ih =>
    intro acc a
    rw [List.foldl_cons, ih]
    by_cases hx : x ∈ acc
    · rw [if_pos hx]
      constructor
      · rintro (h | h)
        · exact Or.inl h
        · exact Or.inr (List.mem_cons_of_mem _ h)
      · rintro (h | h)
        · exact Or.inl h
        · rcases List.mem_cons.mp h with rfl | h2
          · exact Or.inl hx
          · exact Or.inr h2
    · rw [if_neg hx]
      simp only [List.mem_append, List.mem_singleton, List.mem_cons]
      tauto

lemma mem_firstSeen (l : List String) (a : String) : a ∈ firstSeen l ↔ a ∈ l := by
  rw [firstSeen, mem_foldl_firstSeen]
  simp

lemma dictGet_map_key (f : String → Nat) :
    ∀ (F : List String) (k : String),
      dictGet (F.map (fun x => (x, f x))) k = if k ∈ F then f k else 0 := by
  intro F
  induction F with
  | nil => intro k; simp [dictGet]
  | cons x xs ih =>
    intro k
    by_cases hx : x = k
    · subst hx
      simp [dictGet]
    · rw [List.map_cons, dictGet, if_neg hx, ih]
      simp [List.mem_cons, Ne.symm hx]

lemma mem_keys_map (f : String → Nat) (F : List String) (k : String) :
    (k ∈ (F.map (fun x => (x, f x))).map Prod.fst) ↔ k ∈ F := by
  simp [List.map_map, Function.comp]

lemma occurrenceCounts_append (l : List String) (k : String) :
    occurrenceCounts (l ++ [k]) =
      dictSet (occurrenceCounts l) k (dictGet (occurrenceCounts l) k + 1) := by
  have hfs : firstSeen (l ++ [k]) =
      if k ∈ firstSeen l then firstSeen l else firstSeen l ++ [k] := by
    simp [firstSeen, List.foldl_append]
  by_cases hk : k ∈ l
  · have hkf : k ∈ firstSeen l := (mem_firstSeen l k).mpr hk
    have hget : dictGet (occurrenceCounts l) k = l.count k := by
      rw [occurrenceCounts, dictGet_map_key, if_pos hkf]
    have hhas : k ∈ (occurrenceCounts l).map Prod.fst := by
      rw [occurrenceCounts, mem_keys_map]
      exact hkf
    rw [occurrenceCounts, hfs, if_pos hkf, hget, dictSet, if_pos hhas,
      occurrenceCounts, List.map_map]
    apply List.map_congr_left
    intro x hx
    by_cases hxk : x = k
    · subst hxk
      simp [Function.comp, List.count_append]
    · simp [Function.comp, hxk, List.count_append, List.count_singleton', Ne.symm hxk]
  · have hkf : k ∉ firstSeen l := fun h => hk ((mem_firstSeen l k).mp h)
    have hget : dictGet (occurrenceCounts l) k = 0 := by
      rw [occurrenceCounts, dictGet_map_key, if_neg hkf]
    have hhas : k ∉ (occurrenceCounts l).map Prod.fst := by
      rw [occurrenceCounts, mem_keys_map]
      exact hkf
    rw [occurrenceCounts, hfs, if_neg hkf, dictSet, if_neg hhas, hget,
      List.map_append]
    congr 1
    · apply List.map_congr_left
      intro x hx
      have hxk : x ≠ k := fun h => hkf (h ▸ hx)
      simp [List.count_append, List.count_singleton', Ne.symm hxk]
    · simp [List.count_append, List.count_singleton',
        List.count_eq_zero.mpr hk]

lemma applyRecordings_error_counts :
    ∀ (recs : List (ℚ × PyError × String)) (agg : ErrorAggregator),
      agg.error_counts = occurrenceCounts (agg.errors.map ErrorRecord.ty) →
      (recs.foldl (fun a r => a.record_error r.1 r.2.1 r.2.2) agg).error_counts =
        occurrenceCounts
          ((recs.foldl (fun a r => a.record_error r.1 r.2.1 r.2.2) agg).errors.map
            ErrorRecord.ty) := by
  intro recs
  induction recs with
  | nil => intro agg h; simpa using h
  | cons r rs ih =>
    intro agg h
    rw [List.foldl_cons]
    apply ih
    rw [ErrorAggregator.record_error]
    simp only [List.map_append, List.map_cons, List.map_nil]
    rw [h]
    exact (occurrenceCounts_append _ _).symm

/-- The incrementally maintained `error_counts` dict always equals the
counts derived from the full `errors` list, keys in first-seen order. -/
lemma errorCounts_invariant (recs : List (ℚ × PyError × String)) :
    (applyRecordings recs).error_counts =
      occurrenceCounts ((applyRecordings recs).errors.map ErrorRecord.ty) :=
  applyRecordings_error_counts recs ⟨[], []⟩ rfl

lemma mem_insertByCountDesc (p : String × Nat) :
    ∀ (s : List (String × Nat)) (x : String × Nat),
      x ∈ insertByCountDesc p s ↔ x = p ∨ x ∈ s := by
  intro s
  induction s with
  | nil => intro x; simp [insertByCountDesc]
  | cons q qs ih =>
    intro x
    rw [insertByCountDesc]
    by_cases h : p.2 < q.2
    · rw [if_pos h]
      simp only [List.mem_cons, ih]
      tauto
    · rw [if_neg h]
      simp only [List.mem_cons]

lemma pairwise_insertByCountDesc (p : String × Nat) :
    ∀ (s : List (String × Nat)),
      s.Pairwise (fun a b => b.2 ≤ a.2) →
      (insertByCountDesc p s).Pairwise (fun a b => b.2 ≤ a.2) := by
  intro s
  induction s with
  | nil => intro _; simp [insertByCountDesc]
  | cons q qs ih =>
    intro hp
    rcases List.pairwise_cons.mp hp with ⟨hq, hqs⟩
    rw [insertByCountDesc]
    by_cases h : p.2 < q.2
    · rw [if_pos h]
      refine List.pairwise_cons.mpr ⟨?_, ih hqs⟩
      intro x hx
      rcases (mem_insertByCountDesc p qs x).mp hx with rfl | hx2
      · exact le_of_lt h
      · exact hq x hx2
    · rw [if_neg h]
      refine List.pairwise_cons.mpr ⟨?_, hp⟩
      intro x hx
      rcases List.mem_cons.mp hx with rfl | hx2
      · exact le_of_not_lt h
      · exact le_trans (hq x hx2) (le_of_not_lt h)

/-- The modelled `sorted(..., key=count, reverse=True)` output is sorted
by count, descending. -/
lemma sortedByCountDesc_pairwise (l : List (String × Nat)) :
    (sortedByCountDesc l).Pairwise (fun a b => b.2 ≤ a.2) := by
  induction l with
  | nil => simp [sortedByCountDesc]
  | cons p ps ih =>
    rw [sortedByCountDesc]
    exact pairwise_insertByCountDesc p _ ih

lemma perm_insertByCountDesc (p : String × Nat) :
    ∀ (s : List (String × Nat)), (insertByCountDesc p s).Perm (p :: s) := by
  intro s
  induction s with
  | nil => simp [insertByCountDesc]
  | cons q qs ih =>
    rw [insertByCountDesc]
    by_cases h : p.2 < q.2
    · rw [if_pos h]
      exact List.Perm.trans (List.Perm.cons q ih) (List.Perm.swap p q qs)
    · rw [if_neg h]

/-- The sort is a permutation: exactly the dict's entries are ranked. -/
lemma sortedByCountDesc_perm (l : List (String × Nat)) :
    (sortedByCountDesc l).Perm l := by
  induction l with
  | nil => simp [sortedByCountDesc]
  | cons p ps ih =>
    rw [sortedByCountDesc]
    exact List.Perm.trans (perm_insertByCountDesc p _) (List.Perm.cons p ih)

lemma filter_insertByCountDesc (p : String × Nat) (c : Nat) :
    ∀ (s : List (String × Nat)),
      (insertByCountDesc p s).filter (fun q => q.2 == c) =
        if p.2 = c then p :: s.filter (fun q => q.2 == c)
        else s.filter (fun q => q.2 == c) := by
  intro s
  induction s with
  | nil =>
    by_cases h : p.2 = c <;> simp [insertByCountDesc, List.filter_cons, beq_iff_eq, h]
  | cons q qs ih =>
    rw [insertByCountDesc]
    by_cases h : p.2 < q.2
    · rw [if_pos h]
      by_cases hq : q.2 = c
      · have hpc : ¬ p.2 = c := by omega
        simp [List.filter_cons, hq, ih, hpc]
      · simp [List.filter_cons, hq, ih]
    · rw [if_neg h]
      by_cases hpc : p.2 = c <;> simp [List.filter_cons, hpc]

/-- Stability of the modelled Python sort: for every count value, the
entries carrying that count appear in the output in their original
(insertion, i.e. first-seen) order. -/
lemma filter_sortedByCountDesc (c : Nat) :
    ∀ (l : List (String × Nat)),
      (sortedByCountDesc l).filter (fun q => q.2 == c) =
        l.filter (fun q => q.2 == c) := by
  intro l
  induction l with
  | nil => rfl
  | cons p ps ih =>
    rw [sortedByCountDesc, filter_insertByCountDesc, List.filter_cons, ih]
    by_cases h : p.2 = c <;> simp [h]

/-- C5 (amended): for any sequence of recordings, `get_error_summary`
counts and rates only the records inside the window (`now - timestamp ≤
window`; in particular a fully expired window reports 0), but its
`top_errors` ranks the CUMULATIVE per-kind counts over all recorded
errors — proved equal to the counts derived from the full record list,
keys in first-seen order — sorted descending by a stable sort (entries
with equal counts keep first-seen order), truncated to 5. -/
theorem C5_window_summary (recs : List (ℚ × PyError × String)) (now wnd : ℚ)
    (hw : 0 < wnd) :
    ((applyRecordings recs).get_error_summary now wnd).total_errors =
      ((applyRecordings recs).errors.filter
        (fun e => decide (now - e.timestamp ≤ wnd))).length ∧
    ((applyRecordings recs).get_error_summary now wnd).error_rate =
      ((((applyRecordings recs).get_error_summary now wnd).total_errors : ℚ) / (wnd / 60)) ∧
    (applyRecordings recs).error_counts =
      occurrenceCounts ((applyRecordings recs).errors.map ErrorRecord.ty) ∧
    ((applyRecordings recs).get_error_summary now wnd).top_errors =
      (sortedByCountDesc
        (occurrenceCounts ((applyRecordings recs).errors.map ErrorRecord.ty))).take 5 ∧
    (((applyRecordings recs).get_error_summary now wnd).top_errors).Pairwise
      (fun a b => b.2 ≤ a.2) ∧
    (sortedByCountDesc ((applyRecordings recs).error_counts)).Perm
      ((applyRecordings recs).error_counts) ∧
    (∀ c : Nat, (sortedByCountDesc ((applyRecordings recs).error_counts)).filter
        (fun q => q.2 == c) =
      ((applyRecordings recs).error_counts).filter (fun q => q.2 == c)) ∧
    ((∀ r ∈ (applyRecordings recs).errors, ¬ (now - r.timestamp ≤ wnd)) →
      ((applyRecordings recs).get_error_summary now wnd).total_errors = 0) := by
  refine ⟨rfl, rfl, errorCounts_invariant recs, ?_, ?_, sortedByCountDesc_perm _,
    fun c => filter_sortedByCountDesc c _, ?_⟩
  · rw [ErrorAggregator.get_error_summary, errorCounts_invariant recs]
  · exact List.Pairwise.sublist (List.take_sublist 5 _) (sortedByCountDesc_pairwise _)
  · intro hall
    rw [ErrorAggregator.get_error_summary]
    simp only [List.length_eq_zero, List.filter_eq_nil_iff]
    intro a ha
    simpa using hall a ha

/-- The record sequence of the C5 counterexample: three errors of kind
`"X"` at time 0 and one of kind `"Y"` at time 100. -/
def recsXY : List (ℚ × PyError × String) :=
  [(0, ⟨"X", "m"⟩, ""), (0, ⟨"X", "m"⟩, ""), (0, ⟨"X", "m"⟩, ""), (100, ⟨"Y", "m"⟩, "")]

/-- C5 (counterexample): querying at time 100 with window 10, only the
single `"Y"` record is inside the window (`total_errors = 1`, zero `"X"`
records in the window), yet `top_errors` is `[("X", 3), ("Y", 1)]` — the
ranking uses the cumulative counts, not the counts restricted to the
window as the claim states. -/
theorem C5_counterexample :
    ((applyRecordings recsXY).get_error_summary 100 10).total_errors = 1 ∧
    ((applyRecordings recsXY).get_error_summary 100 10).top_errors =
      [("X", 3), ("Y", 1)] ∧
    ((applyRecordings recsXY).errors.filter
        (fun e => decide ((100 : ℚ) - e.timestamp ≤ 10))).countP
      (fun e => e.ty == "X") = 0 := by
  have hagg : applyRecordings recsXY =
      ⟨[⟨0, "X", "m", ""⟩, ⟨0, "X", "m", ""⟩, ⟨0, "X", "m", ""⟩, ⟨100, "Y", "m", ""⟩],
        [("X", 3), ("Y", 1)]⟩ := by
    simp [applyRecordings, recsXY, ErrorAggregator.record_error, dictGet, dictSet]
  rw [hagg]
  refine ⟨?_, ?_, ?_⟩
  · norm_num [ErrorAggregator.get_error_summary]
  · simp [ErrorAggregator.get_error_summary, sortedByCountDesc, insertByCountDesc]
  · norm_num [List.filter]
    decide

/-- C5 witness: the amended theorem at the counterexample's recordings,
queried at time 100 with window 10. -/
theorem C5_window_summary_witness :
    ((applyRecordings recsXY).get_error_summary 100 10).total_errors =
      ((applyRecordings recsXY).errors.filter
        (fun e => decide ((100 : ℚ) - e.timestamp ≤ 10))).length :=
  (C5_window_summary recsXY 100 10 (by norm_num)).1

/- ----------------------------------------------------------------
Lemmas about the gather model.
---------------------------------------------------------------- -/

lemma scheduleStep_length (tasks : List α) (slots : List (Option α)) (i : Nat) :
    (scheduleStep tasks slots i).length = slots.length := by
  rw [scheduleStep]
  cases tasks.get? i <;> simp

lemma foldl_scheduleStep_length (tasks : List α) :
    ∀ (schedule : List Nat) (slots : List (Option α)),
      (schedule.foldl (scheduleStep tasks) slots).length = slots.length := by
  intro schedule
  induction schedule with
  | nil => intro slots; rfl
  | cons j rest ih =>
    intro slots
    rw [List.foldl_cons, ih, scheduleStep_length]

lemma foldl_scheduleStep_get (tasks : List α) :
    ∀ (schedule : List Nat) (slots : List (Option α)) (i : Nat),
      slots.length = tasks.length → i < tasks.length →
      (i ∈ schedule ∨ slots.get? i = (tasks.get? i).map some) →
      (schedule.foldl (scheduleStep tasks) slots).get? i = (tasks.get? i).map some := by
  intro schedule
  induction schedule with
  | nil =>
    intro slots i hlen hi hpre
    rcases hpre with h | h
    · cases h
    · exact h
  | cons j rest ih =>
    intro slots i hlen hi hpre
    rw [List.foldl_cons]
    apply ih _ _ (by rw [scheduleStep_length]; exact hlen) hi
    by_cases hij : i = j
    · subst hij
      right
      rw [scheduleStep]
      rcases ht : tasks.get? i with _ | v2
      · rw [List.get?_eq_none] at ht
        omega
      · rw [List.get?_set_eq_of_lt _ (show i < slots.length by omega)]
        rfl
    · rcases hpre with h | h
      · rcases List.mem_cons.mp h with rfl | h2
        · exact absurd rfl hij
        · exact Or.inl h2
      · right
        rw [scheduleStep]
        rcases tasks.get? j with _ | v2
        · exact h
        · rw [List.get?_set_ne _ _ (fun hji => hij hji.symm)]
          exact h

/-- Under a schedule that completes every task, the slots end up holding
exactly the task results, in task order. -/
lemma runSchedule_covers (tasks : List α) (schedule : List Nat)
    (h : ∀ i, i < tasks.length → i ∈ schedule) :
    runSchedule tasks schedule = tasks.map some := by
  rw [runSchedule]
  apply List.ext_get?
  intro i
  by_cases hi : i < tasks.length
  · rw [foldl_scheduleStep_get tasks schedule _ i (by simp) hi (Or.inl (h i hi)),
      List.get?_map]
  · have h1 : (schedule.foldl (scheduleStep tasks)
        (List.replicate tasks.length none)).get? i = none := by
      rw [List.get?_eq_none, foldl_scheduleStep_length]
      simp only [List.length_replicate]
      omega
    have h2 : (tasks.map some).get? i = none := by
      rw [List.get?_eq_none]
      simp only [List.length_map]
      omega
    rw [h1, h2]

lemma reduceOption_map_some (l : List α) : (l.map some).reduceOption = l := by
  induction l with
  | nil => rfl
  | cons x xs ih => simp [List.reduceOption_cons_of_some, ih]

/-- `asyncio.gather` under a completing schedule returns exactly the task
results in task order, regardless of the completion order. -/
lemma gatherOrdered_covers (tasks : List α) (schedule : List Nat)
    (h : ∀ i, i < tasks.length → i ∈ schedule) :
    gatherOrdered tasks schedule = some tasks := by
  rw [gatherOrdered, runSchedule_covers tasks schedule h]
  have hall : (tasks.map some).all Option.isSome = true := by
    simp [List.all_eq_true]
  rw [if_pos hall, reduceOption_map_some]

/-- Under a completing schedule, `batch_health_checks` returns exactly one
`async_health_check` result per url, in url order. -/
lemma batch_health_checks_covers (net : String → Except PyError Nat × ℚ)
    (urls : List String) (schedule : List Nat)
    (h : ∀ i, i < urls.length → i ∈ schedule) :
    batch_health_checks net urls schedule = some (urls.map (async_health_check net)) := by
  rw [batch_health_checks, gatherOrdered_covers _ schedule (by simpa using h)]
  simp [List.map_map, processGatherEntry, Function.comp]

lemma async_health_check_url (net : String → Except PyError Nat × ℚ) (u : String) :
    (async_health_check net u).url = some u := by
  cases h : net u with
  | mk o rt => cases o <;> simp [async_health_check, h]

/-- C9: under any schedule in which every dispatched check completes,
`batch_health_checks` returns exactly the per-url results in input url
order — independent of the completion order — with one result per url
(each carrying its url), and the empty url list yields the empty result
list under every schedule. -/
theorem C9_ordered_results (net : String → Except PyError Nat × ℚ)
    (urls : List String) (schedule : List Nat)
    (h : ∀ i, i < urls.length → i ∈ schedule) :
    batch_health_checks net urls schedule = some (urls.map (async_health_check net)) ∧
    (urls.map (async_health_check net)).length = urls.length ∧
    (urls.map (async_health_check net)).map HealthResult.url = urls.map some ∧
    (∀ schedule2 : List Nat, batch_health_checks net [] schedule2 = some []) := by
  refine ⟨batch_health_checks_covers net urls schedule h, by simp, ?_, ?_⟩
  · rw [List.map_map]
    apply List.map_congr_left
    intro u hu
    simp [Function.comp, async_health_check_url]
  · intro schedule2
    exact batch_health_checks_covers net [] schedule2 (by intro i hi; simp at hi)

/-- The example network of the witnesses: url `"a"` responds 200 in 1s,
every other url raises the aiohttp timeout after 5s. -/
def netW : String → Except PyError Nat × ℚ := fun u =>
  if u = "a" then (Except.ok 200, 1) else (Except.error ⟨"TimeoutError", "timeout"⟩, 5)

/-- C9 witness: two urls gathered under the reversed completion order
`[1, 0]` still yield results in url order. -/
theorem C9_ordered_results_witness :
    batch_health_checks netW ["a", "b"] [1, 0] =
      some (["a", "b"].map (async_health_check netW)) :=
  (C9_ordered_results netW ["a", "b"] [1, 0]
    (by intro i hi; simp at hi; interval_cases i <;> decide)).1

/-- C8: a target whose check raises (failure or timeout) never makes the
aggregate call fail — the batch still returns one result per url — and
that target's entry reports `healthy = false` with `error = str(e)`,
while the results of all other targets are unchanged if the failing
target's network behaviour changes (non-interference). -/
theorem C8_partial_failure_isolation (net net2 : String → Except PyError Nat × ℚ)
    (u0 : String) (e : PyError) (urls : List String) (schedule : List Nat)
    (hcov : ∀ i, i < urls.length → i ∈ schedule)
    (hfail : (net u0).1 = Except.error e)
    (hagree : ∀ u, u ≠ u0 → net u = net2 u) :
    batch_health_checks net urls schedule = some (urls.map (async_health_check net)) ∧
    (async_health_check net u0).healthy = false ∧
    (async_health_check net u0).error = some e.msg ∧
    (urls.filter (fun u => u != u0)).map (async_health_check net) =
      (urls.filter (fun u => u != u0)).map (async_health_check net2) := by
  refine ⟨batch_health_checks_covers net urls schedule hcov, ?_, ?_, ?_⟩
  · cases h : net u0 with
    | mk o rt =>
      rw [h] at hfail
      simp only at hfail
      subst hfail
      simp [async_health_check, h]
  · cases h : net u0 with
    | mk o rt =>
      rw [h] at hfail
      simp only at hfail
      subst hfail
      simp [async_health_check, h]
  · apply List.map_congr_left
    intro u hu
    have hne : u ≠ u0 := by simpa using List.of_mem_filter hu
    simp only [async_health_check, hagree u hne]

/-- The C8 witness's second network: like `netW` but url `"b"` now
responds 200 — all other urls behave as before. -/
def netW2 : String → Except PyError Nat × ℚ := fun u =>
  if u = "b" then (Except.ok 200, 1) else netW u

/-- C8 witness: with `"b"` timing out under `netW` and succeeding under
`netW2`, the results of the other urls are identical. -/
theorem C8_partial_failure_isolation_witness :
    (["a", "b"].filter (fun u => u != "b")).map (async_health_check netW) =
      (["a", "b"].filter (fun u => u != "b")).map (async_health_check netW2) :=
  (C8_partial_failure_isolation netW netW2 "b" ⟨"TimeoutError", "timeout"⟩
    ["a", "b"] [1, 0] (by intro i hi; simp at hi; interval_cases i <;> decide)
    (by simp [netW]) (fun u hu => by simp [netW2, hu])).2.2.2
